import Mathlib

/-!
Verification of the redis-based distributed lock library (package `lock`).

The embedding models:
- `time.Duration` as `Int` (nanoseconds), matching the Go int64 durations
  used by the library (overflow is irrelevant at the magnitudes involved);
- the redis store visible to one key space as an association list from
  keys to (value, ttl) pairs;
- the two store primitives the code uses: `SETNX key value ttl` and
  `EVAL UnlockLuaScript`, the latter by a direct translation of the Lua
  script
    if redis.call(<get>, KEYS[1]) == ARGV[1]
      then return redis.call(<del>, KEYS[1]) else return 0 end
  under redis Lua semantics: GET of a missing key yields the Lua value
  false, which never equals a string argument, and the script therefore
  returns the integer 0 on both the missing-key and the mismatched-value
  paths, and 1 (the DEL count) on the matching path;
- the go-redis client reply of `Eval(...).Result()`: an integer reply is
  surfaced as `(int64 n, nil error)`; the sentinel error `redis.Nil`
  arises only from a nil reply, which this script can never produce; a
  transport or protocol failure is surfaced as a non-nil error distinct
  from `redis.Nil`. A possible transport failure is threaded through the
  operations as an oracle argument (`Option String`).
-/

namespace RedisLock

/-- Go `time.Duration`: a count of nanoseconds. -/
abbrev Duration := Int

/-- Go `time.Second` in nanoseconds. -/
def second : Duration := 1000000000

/-- Go `time.Millisecond` in nanoseconds. -/
def millisecond : Duration := 1000000

/-- The `Options` struct of the package: expiration, retry count, retry
delay. These are its only fields. -/
structure Options where
  Expiration : Duration
  RetryCount : Int
  RetryDelay : Duration
deriving Repr, DecidableEq

/-- The `(*Options).init` method: substitute defaults for out-of-range
fields, in the order the Go code checks them. -/
def Options.init (o : Options) : Options :=
  let o1 := if o.Expiration < 1 then { o with Expiration := 5 * second } else o
  let o2 := if o1.RetryCount < 0 then { o1 with RetryCount := 0 } else o1
  if o2.RetryDelay < 1 then { o2 with RetryDelay := 100 * millisecond } else o2

/-- The sentinel error values of the package, plus a constructor for an
error produced by the underlying client (network or protocol failure),
carried unmodified. -/
inductive GoError where
  | lockNotAcquired
  | unlockFailed
  | unlockKeyExpired
  | transport (msg : String)
deriving Repr, DecidableEq

/-- The redis key space: an association list mapping each key to its
value and the ttl the value was set with. Keys are unique in any store
reachable by the operations modelled here. -/
abbrev Store := List (String × String × Duration)

/-- Lookup of a key: the (value, ttl) pair of the first matching entry. -/
def storeGet (s : Store) (k : String) : Option (String × Duration) :=
  (s.find? (fun e => e.1 == k)).map (fun e => e.2)

/-- The value currently stored under a key, if any. -/
def storeVal (s : Store) (k : String) : Option String :=
  (storeGet s k).map Prod.fst

/-- Removal of a key from the store. -/
def storeDel (s : Store) (k : String) : Store :=
  s.filter (fun e => !(e.1 == k))

/-- Redis `SETNX key value` with an expiration: create the record only
if the key is absent, and report whether creation occurred. -/
def setNX (s : Store) (k v : String) (ttl : Duration) : Store × Bool :=
  match storeGet s k with
  | some _ => (s, false)
  | none => ((k, v, ttl) :: s, true)

/-- Evaluation of `UnlockLuaScript` on the store: compare the stored
value with the token and delete on a match. GET of a missing key yields
Lua false, which is not equal to the string token, so the missing-key
path falls to the else branch and returns 0; the matching path returns
the DEL count, which is 1 because the key was just observed present. -/
def evalUnlockScript (s : Store) (k v : String) : Store × Int :=
  match storeVal s k with
  | some w => if w = v then (storeDel s k, 1) else (s, 0)
  | none => (s, 0)

/-- A go-redis reply value, restricted to what this script can return. -/
inductive RedisValue where
  | int (n : Int)
deriving Repr, DecidableEq

/-- The outcome of `Eval(...).Result()` as seen by the Go caller: a
reply value with a nil error, the sentinel `redis.Nil`, or a non-nil
transport or protocol error. -/
inductive EvalOutcome where
  | ok (v : RedisValue)
  | nilReply
  | fail (msg : String)
deriving Repr, DecidableEq

/-- The client call `Client.Eval(UnlockLuaScript, [key], value)`: either
the transport fails (oracle input, store untouched), or the script runs
atomically and its integer result is returned with a nil error. The
`redis.Nil` outcome would require a nil reply, which this script never
produces. -/
def clientEvalUnlock (s : Store) (k v : String) (transport : Option String) :
    Store × EvalOutcome :=
  match transport with
  | some e => (s, .fail e)
  | none =>
    let r := evalUnlockScript s k v
    (r.1, .ok (.int r.2))

/-- A `DistributedMutex` value: key, token value and resolved options.
The redis client reference and the local `sync.Mutex` guard carry no
data relevant to the sequential semantics modelled here. -/
structure DistributedMutex where
  Key : String
  Value : String
  Opt : Options
deriving Repr, DecidableEq

/-- The `NewDistributedMutex` constructor. The Go options argument is a
pointer, modelled as `Option Options`; `opt.init()` on a nil pointer
dereferences nil and the run fails with a runtime panic, modelled as the
error branch. -/
def NewDistributedMutex (key value : String) (opt : Option Options) :
    Except String DistributedMutex :=
  match opt with
  | none => .error "runtime error: invalid memory address or nil pointer dereference"
  | some o => .ok { Key := key, Value := value, Opt := o.init }

/-- The `(*DistributedMutex).Unlock` method: run the unlock script via
the client, map `redis.Nil` to `ErrUnlockKeyExpired`, propagate any
other non-nil error, succeed when the integer reply is 1, and otherwise
return `ErrUnlockFailed`. Returns the resulting store and the returned
error, if any. -/
def DistributedMutex.Unlock (d : DistributedMutex) (s : Store)
    (transport : Option String) : Store × Option GoError :=
  let r := clientEvalUnlock s d.Key d.Value transport
  match r.2 with
  | .nilReply => (r.1, some .unlockKeyExpired)
  | .fail e => (r.1, some (.transport e))
  | .ok (.int n) => if n = 1 then (r.1, none) else (r.1, some .unlockFailed)

/-- One `tryLock` reply as the Lock loop sees it: the `(ok, err)` pair
of `Client.SetNX(...).Result()`, with a non-nil error carrying the
client failure message. -/
inductive StoreReply (α : Type) where
  | ok (a : α)
  | err (msg : String)
deriving Repr, DecidableEq

/-- The observable outcome of one run of the Lock loop: the final state
of the client (for the store instantiation, the store itself), the error
returned (`none` on success), the number of `tryLock` attempts made, and
the list of slept delays in order. -/
structure LockRun (σ : Type) where
  state : σ
  error : Option GoError
  attempts : Nat
  sleeps : List Duration
deriving Repr

/-- The retry loop of `(*DistributedMutex).Lock`, parametric in the
client: `step` performs one `tryLock` call against the client state. The
loop returns any client error at once, returns success when the set
succeeded, and otherwise retries after sleeping `delay`, at most
`retryCount` times, failing with `ErrLockNotAcquired` when the budget is
exhausted. -/
def lockLoop {σ : Type} (step : σ → σ × StoreReply Bool) (delay : Duration)
    (st : σ) (retryCount : Int) : LockRun σ :=
  let r := step st
  match r.2 with
  | .err e => ⟨r.1, some (.transport e), 1, []⟩
  | .ok true => ⟨r.1, none, 1, []⟩
  | .ok false =>
    if h : retryCount ≤ 0 then ⟨r.1, some .lockNotAcquired, 1, []⟩
    else
      let rest := lockLoop step delay r.1 (retryCount - 1)
      ⟨rest.state, rest.error, rest.attempts + 1, delay :: rest.sleeps⟩
termination_by retryCount.toNat
decreasing_by omega

/-- One `tryLock` call against the store itself, with no client failure:
`Client.SetNX(Key, Value, Expiration)`. -/
def setNXStep (k v : String) (exp : Duration) : Store → Store × StoreReply Bool :=
  fun s =>
    let r := setNX s k v exp
    (r.1, .ok r.2)

/-- The `(*DistributedMutex).Lock` method run against a store with a
responsive client: the retry loop instantiated with the SETNX step and
the resolved options of the instance. -/
def DistributedMutex.Lock (d : DistributedMutex) (s : Store) : LockRun Store :=
  lockLoop (setNXStep d.Key d.Value d.Opt.Expiration) d.Opt.RetryDelay s d.Opt.RetryCount

/-! Supporting lemmas. -/

/-- Deleting a key removes it: a lookup after `storeDel` finds nothing. -/
lemma storeGet_storeDel (s : Store) (k : String) : storeGet (storeDel s k) k = none := by
  induction s with
  | nil => rfl
  | cons e t ih =>
    by_cases he : e.1 == k
    · simpa [storeDel, List.filter_cons, he] using ih
    · have : storeDel (e :: t) k = e :: storeDel t k := by
        simp [storeDel, List.filter_cons, he]
      rw [this]
      unfold storeGet at *
      rw [List.find?_cons_of_neg _ (by simpa using he)]
      exact ih

/-- Lookup after inserting the key at the head of the store. -/
lemma storeGet_cons_self (s : Store) (k v : String) (ttl : Duration) :
    storeGet ((k, v, ttl) :: s) k = some (v, ttl) := by
  unfold storeGet
  rw [List.find?_cons_of_pos _ (by simp)]
  rfl

/-- A client oracle for the Lock loop: the i-th `tryLock` call returns
`client i`; the state counts the calls made so far. This instantiation
quantifies over every possible sequence of client replies. -/
def streamStep (client : Nat → StoreReply Bool) : Nat → Nat × StoreReply Bool :=
  fun i => (i + 1, client i)

/-- A step that leaves the state fixed and reports the key as taken
drives the loop to exhaustion: `retryCount.toNat + 1` attempts, one
sleep of `delay` between consecutive attempts, `ErrLockNotAcquired`. -/
lemma lockLoop_fixed_false {σ : Type} (step : σ → σ × StoreReply Bool)
    (delay : Duration) (st : σ) (hst : step st = (st, .ok false)) :
    ∀ (n : Nat) (rc : Int), rc.toNat = n →
      lockLoop step delay st rc
        = ⟨st, some .lockNotAcquired, n + 1, List.replicate n delay⟩ := by
  intro n
  induction n with
  | zero =>
    intro rc h
    have hrc : rc ≤ 0 := by omega
    rw [lockLoop]
    simp [hst, hrc]
  | succ m ih =>
    intro rc h
    have hrc : ¬ rc ≤ 0 := by omega
    rw [lockLoop]
    simp [hst, hrc, ih (rc - 1) (by omega), List.replicate_succ]

/-- In every run the number of attempts is bounded by the retry budget
plus one. -/
lemma lockLoop_attempts_le {σ : Type} (step : σ → σ × StoreReply Bool)
    (delay : Duration) :
    ∀ (n : Nat) (rc : Int), rc.toNat = n → ∀ st : σ,
      (lockLoop step delay st rc).attempts ≤ n + 1 := by
  intro n
  induction n with
  | zero =>
    intro rc h st
    have hrc : rc ≤ 0 := by omega
    rw [lockLoop]
    cases hr : (step st).2 with
    | err e => simp [hr]
    | ok b => cases b <;> simp [hr, hrc]
  | succ m ih =>
    intro rc h st
    have hrc : ¬ rc ≤ 0 := by omega
    rw [lockLoop]
    cases hr : (step st).2 with
    | err e => simp [hr]
    | ok b =>
      cases b with
      | true => simp [hr]
      | false =>
        have := ih (rc - 1) (by omega) ((step st).1)
        simp [hr, hrc]
        omega

/-- When the first j replies report the key taken and reply j is a
client error, the loop stops at attempt j + 1 and returns that error. -/
lemma lockLoop_stream_err (client : Nat → StoreReply Bool) (delay : Duration)
    (e : String) :
    ∀ (j : Nat) (rc : Int) (i0 : Nat),
      (∀ i : Nat, i < j → client (i0 + i) = .ok false) →
      client (i0 + j) = .err e → (j : Int) ≤ rc →
      lockLoop (streamStep client) delay i0 rc
        = ⟨i0 + j + 1, some (GoError.transport e), j + 1, List.replicate j delay⟩ := by
  intro j
  induction j with
  | zero =>
    intro rc i0 hb he hj
    have he0 : client i0 = .err e := by simpa using he
    rw [lockLoop]
    simp [streamStep, he0]
  | succ m ih =>
    intro rc i0 hb he hj
    have h0 : client i0 = .ok false := by simpa using hb 0 (Nat.succ_pos m)
    have hrc : ¬ rc ≤ 0 := by omega
    have hb' : ∀ i : Nat, i < m → client (i0 + 1 + i) = .ok false := by
      intro i hi
      have := hb (i + 1) (by omega)
      have harith : i0 + (i + 1) = i0 + 1 + i := by omega
      rwa [harith] at this
    have he' : client (i0 + 1 + m) = .err e := by
      have harith : i0 + (m + 1) = i0 + 1 + m := by omega
      rwa [harith] at he
    have hrec := ih (rc - 1) (i0 + 1) hb' he' (by omega)
    rw [lockLoop]
    simp [streamStep, h0, hrc, hrec, List.replicate_succ]
    omega

/-! Theorems for the claims. -/

/-- C6. Resolution substitutes 5 seconds for an Expiration below one
time-unit, 0 for a negative RetryCount, and 100 milliseconds for a
RetryDelay below one time-unit; valid values pass through unchanged. -/
theorem init_resolves_each_field (o : Options) :
    (o.init).Expiration = (if o.Expiration < 1 then 5 * second else o.Expiration) ∧
    (o.init).RetryCount = (if o.RetryCount < 0 then 0 else o.RetryCount) ∧
    (o.init).RetryDelay = (if o.RetryDelay < 1 then 100 * millisecond else o.RetryDelay) := by
  rcases o with ⟨e, rc, rd⟩
  by_cases h1 : e < 1 <;> by_cases h2 : rc < 0 <;> by_cases h3 : rd < 1 <;>
    simp [Options.init, h1, h2, h3]

/-- C9. Resolution is idempotent: resolving an already-resolved policy
returns it unchanged. Purity and totality are inherent in the embedding
as a Lean function, and Options has no fields beyond the three. -/
theorem init_idempotent (o : Options) : o.init.init = o.init := by
  have hE : ¬ o.init.Expiration < 1 := by
    rw [(init_resolves_each_field o).1]
    split
    · decide
    · assumption
  have hR : ¬ o.init.RetryCount < 0 := by
    rw [(init_resolves_each_field o).2.1]
    split
    · decide
    · assumption
  have hD : ¬ o.init.RetryDelay < 1 := by
    rw [(init_resolves_each_field o).2.2]
    split
    · decide
    · assumption
  generalize o.init = x at hE hR hD ⊢
  unfold Options.init
  simp [hE, hR, hD]

/-- C10. The constructor dereferences the options pointer inside `init`
without a nil check: a nil argument fails with a runtime panic, while
any non-nil options value yields an instance carrying the resolved
options. -/
theorem newDistributedMutex_nil_options_panics (k v : String) :
    NewDistributedMutex k v none
      = .error "runtime error: invalid memory address or nil pointer dereference" ∧
    ∀ o : Options, NewDistributedMutex k v (some o)
      = .ok { Key := k, Value := v, Opt := o.init } :=
  ⟨rfl, fun _ => rfl⟩

/-- C1 (code bug). With the key absent from the store, the unlock
script returns the integer 0, not a nil reply, so `Unlock` falls
through to `ErrUnlockFailed` instead of the documented
`ErrUnlockKeyExpired`; the store is left unchanged. -/
theorem unlock_absent_key_returns_unlockFailed :
    DistributedMutex.Unlock
        { Key := "job-1", Value := "req-A", Opt := (Options.mk 0 0 0).init } [] none
      = ([], some GoError.unlockFailed) ∧
    GoError.unlockFailed ≠ GoError.unlockKeyExpired :=
  ⟨rfl, by decide⟩

/-- C3. Release deletes only on a token match: whenever the stored
value under the key differs from the token (or the key is absent, or
the client fails in transit), the store is unchanged; contrapositively,
any change implies the stored value equalled the token. -/
theorem unlock_deletes_only_on_token_match (d : DistributedMutex) (s : Store)
    (t : Option String) :
    (storeVal s d.Key ≠ some d.Value → (d.Unlock s t).1 = s) ∧
    ((d.Unlock s t).1 ≠ s → storeVal s d.Key = some d.Value) := by
  have h1 : storeVal s d.Key ≠ some d.Value → (d.Unlock s t).1 = s := by
    intro h
    cases t with
    | some e => rfl
    | none =>
      unfold DistributedMutex.Unlock clientEvalUnlock evalUnlockScript
      cases hv : storeVal s d.Key with
      | none => simp [hv]
      | some w =>
        have hw : ¬ w = d.Value := fun hEq => h (by rw [hv, hEq])
        simp [hv, hw]
  exact ⟨h1, fun hch => by_contra fun hne => hch (h1 hne)⟩

/-- C3 witness: a store holding the key under another token is returned
unchanged by Unlock. -/
theorem unlock_deletes_only_on_token_match_witness :
    (DistributedMutex.Unlock ⟨"k", "tok", ⟨5 * second, 0, 100 * millisecond⟩⟩
        [("k", "other", 5)] none).1 = [("k", "other", 5)] :=
  (unlock_deletes_only_on_token_match ⟨"k", "tok", ⟨5 * second, 0, 100 * millisecond⟩⟩
    [("k", "other", 5)] none).1 (by decide)

/-- C4. Release on a record whose stored value differs from the token
returns `ErrUnlockFailed` and leaves the record in place with its
original value. -/
theorem unlock_mismatch_returns_unlockFailed (d : DistributedMutex) (s : Store)
    (w : String) (ttl : Duration) (hget : storeGet s d.Key = some (w, ttl))
    (hne : w ≠ d.Value) :
    d.Unlock s none = (s, some GoError.unlockFailed) ∧
    storeGet (d.Unlock s none).1 d.Key = some (w, ttl) := by
  have hv : storeVal s d.Key = some w := by simp [storeVal, hget]
  have h : d.Unlock s none = (s, some GoError.unlockFailed) := by
    unfold DistributedMutex.Unlock clientEvalUnlock evalUnlockScript
    simp [hv, hne]
  exact ⟨h, by rw [h]; exact hget⟩

/-- C4 witness at a concrete mismatched record. -/
theorem unlock_mismatch_returns_unlockFailed_witness :
    DistributedMutex.Unlock ⟨"k", "tok", ⟨5 * second, 0, 100 * millisecond⟩⟩
        [("k", "other", 7)] none
      = ([("k", "other", 7)], some GoError.unlockFailed) :=
  (unlock_mismatch_returns_unlockFailed ⟨"k", "tok", ⟨5 * second, 0, 100 * millisecond⟩⟩
    [("k", "other", 7)] "other" 7 (by decide) (by decide)).1

/-- C8. Release on a record whose stored value equals the token deletes
the record and returns no error. -/
theorem unlock_match_deletes_and_succeeds (d : DistributedMutex) (s : Store)
    (ttl : Duration) (hget : storeGet s d.Key = some (d.Value, ttl)) :
    d.Unlock s none = (storeDel s d.Key, none) ∧
    storeGet (d.Unlock s none).1 d.Key = none := by
  have hv : storeVal s d.Key = some d.Value := by simp [storeVal, hget]
  have h : d.Unlock s none = (storeDel s d.Key, none) := by
    unfold DistributedMutex.Unlock clientEvalUnlock evalUnlockScript
    simp [hv]
  exact ⟨h, by rw [h]; exact storeGet_storeDel s d.Key⟩

/-- C8 witness at a concrete matching record. -/
theorem unlock_match_deletes_and_succeeds_witness :
    DistributedMutex.Unlock ⟨"k", "tok", ⟨5 * second, 0, 100 * millisecond⟩⟩
        [("k", "tok", 7)] none
      = ([], none) :=
  (unlock_match_deletes_and_succeeds ⟨"k", "tok", ⟨5 * second, 0, 100 * millisecond⟩⟩
    [("k", "tok", 7)] 7 (by decide)).1

/-- C2. On a key already held under a different token, Lock with a
resolved RetryCount of N makes exactly N + 1 attempts, sleeps RetryDelay
between consecutive attempts, and fails with `ErrLockNotAcquired`; and
in every run of the loop, against any client whatsoever, the number of
attempts is at most RetryCount + 1, so the loop terminates. -/
theorem lock_contended_exhausts_retries (d : DistributedMutex) (s : Store)
    (w : String) (ttl : Duration)
    (hheld : storeGet s d.Key = some (w, ttl)) (_hw : w ≠ d.Value)
    (_hrc : 0 ≤ d.Opt.RetryCount) :
    d.Lock s = ⟨s, some GoError.lockNotAcquired, d.Opt.RetryCount.toNat + 1,
        List.replicate d.Opt.RetryCount.toNat d.Opt.RetryDelay⟩ ∧
    ∀ (σ : Type) (step : σ → σ × StoreReply Bool) (delay : Duration) (st : σ)
      (rc : Int), (lockLoop step delay st rc).attempts ≤ rc.toNat + 1 := by
  constructor
  · have hst : setNXStep d.Key d.Value d.Opt.Expiration s = (s, .ok false) := by
      unfold setNXStep setNX
      rw [hheld]
    exact lockLoop_fixed_false _ _ _ hst _ _ rfl
  · intro σ step delay st rc
    exact lockLoop_attempts_le step delay rc.toNat rc rfl st

/-- C2 witness: holder A has job-1; B with RetryCount 2 makes 3
attempts, sleeps twice, and fails with `ErrLockNotAcquired`. -/
theorem lock_contended_exhausts_retries_witness :
    DistributedMutex.Lock
        ⟨"job-1", "req-B", (Options.mk (5 * second) 2 (100 * millisecond)).init⟩
        [("job-1", "req-A", 5 * second)]
      = ⟨[("job-1", "req-A", 5 * second)], some GoError.lockNotAcquired, 3,
        List.replicate 2 (100 * millisecond)⟩ :=
  (lock_contended_exhausts_retries
    ⟨"job-1", "req-B", (Options.mk (5 * second) 2 (100 * millisecond)).init⟩
    [("job-1", "req-A", 5 * second)] "req-A" (5 * second) rfl (by decide) (by decide)).1

/-- C5. A client failure is propagated at once and unmodified: if the
first j replies report the key taken and reply j is a client error, the
Lock loop returns that error after attempt j + 1 with no further
attempts; and Unlock under a client failure returns that failure and
leaves the store untouched. -/
theorem store_error_propagated_unmodified (client : Nat → StoreReply Bool)
    (delay : Duration) (rc : Int) (j : Nat) (e : String)
    (hb : ∀ i : Nat, i < j → client i = .ok false)
    (he : client j = .err e) (hj : (j : Int) ≤ rc) :
    lockLoop (streamStep client) delay 0 rc
      = ⟨j + 1, some (GoError.transport e), j + 1, List.replicate j delay⟩ ∧
    ∀ (d : DistributedMutex) (s : Store) (msg : String),
      d.Unlock s (some msg) = (s, some (GoError.transport msg)) := by
  constructor
  · have := lockLoop_stream_err client delay e j rc 0
      (fun i hi => by simpa using hb i hi) (by simpa using he) hj
    simpa using this
  · intro d s msg
    rfl

/-- C5 witness: a client that fails on the very first call makes the
loop return the transport error after a single attempt. -/
theorem store_error_propagated_unmodified_witness :
    lockLoop (streamStep (fun _ => .err "connection refused")) (100 * millisecond) 0 0
      = ⟨1, some (GoError.transport "connection refused"), 1, []⟩ :=
  (store_error_propagated_unmodified (fun _ => .err "connection refused")
    (100 * millisecond) 0 0 "connection refused"
    (fun i hi => absurd hi (Nat.not_lt_zero i)) rfl (by decide)).1

/-- C7. On a key with no existing record, the first attempt of Lock
succeeds with no retry and no sleep, and the store then maps the key to
the instance token with ttl equal to the resolved Expiration. -/
theorem lock_fresh_key_first_attempt (k v : String) (opt : Options) (s : Store)
    (d : DistributedMutex) (hd : NewDistributedMutex k v (some opt) = .ok d)
    (hfree : storeGet s k = none) :
    d.Lock s = ⟨(k, v, opt.init.Expiration) :: s, none, 1, []⟩ ∧
    storeGet (d.Lock s).state k = some (v, opt.init.Expiration) := by
  have hd' : ({ Key := k, Value := v, Opt := opt.init } : DistributedMutex) = d := by
    simpa [NewDistributedMutex] using hd
  subst hd'
  have h1 : DistributedMutex.Lock { Key := k, Value := v, Opt := opt.init } s
      = ⟨(k, v, opt.init.Expiration) :: s, none, 1, []⟩ := by
    unfold DistributedMutex.Lock
    rw [lockLoop]
    simp [setNXStep, setNX, hfree]
  exact ⟨h1, by rw [h1]; exact storeGet_cons_self s k v opt.init.Expiration⟩

/-- C7 witness: acquiring job-1 on an empty store with default options
creates the record with the default 5 second expiration. -/
theorem lock_fresh_key_first_attempt_witness :
    DistributedMutex.Lock ⟨"job-1", "req-A", (Options.mk 0 0 0).init⟩ []
      = ⟨[("job-1", "req-A", (Options.mk 0 0 0).init.Expiration)], none, 1, []⟩ :=
  (lock_fresh_key_first_attempt "job-1" "req-A" (Options.mk 0 0 0) [] _ rfl rfl).1

end RedisLock
